import Mathlib

/-!
Verification of the lerobot-gui client against its natural-language
specification.  The client code lives in the React pages
`Teleoperation.tsx`, `Calibration.tsx`, `ArmConfiguration.tsx` and the
zustand store `lerobotStore.tsx`; the definitions below are a shallow
embedding of the relevant functions and message handlers, with strings
modelled as `List Char` (written `Str`) and JavaScript numbers modelled
by `JSNum` (NaN, signed infinity, or a finite rational).
-/

abbrev Str := List Char

/-- JS whitespace characters relevant to `String.prototype.trim` for the
ASCII output handled here. -/
def isWSChar (c : Char) : Bool :=
  c = ' ' || c = '\t' || c = '\n' || c = '\r' || c = '\x0b' || c = '\x0c'

/-- ASCII lowercasing, the effect of `String.prototype.toLowerCase` on the
ASCII output text handled here. -/
def toLowerChar : Char → Char
  | 'A' => 'a' | 'B' => 'b' | 'C' => 'c' | 'D' => 'd' | 'E' => 'e'
  | 'F' => 'f' | 'G' => 'g' | 'H' => 'h' | 'I' => 'i' | 'J' => 'j'
  | 'K' => 'k' | 'L' => 'l' | 'M' => 'm' | 'N' => 'n' | 'O' => 'o'
  | 'P' => 'p' | 'Q' => 'q' | 'R' => 'r' | 'S' => 's' | 'T' => 't'
  | 'U' => 'u' | 'V' => 'v' | 'W' => 'w' | 'X' => 'x' | 'Y' => 'y'
  | 'Z' => 'z'
  | c => c

/-- Boolean prefix test on character lists. -/
def isPrefixC : Str → Str → Bool
  | [], _ => true
  | _ :: _, [] => false
  | a :: as, b :: bs => a = b && isPrefixC as bs

/-- `hay.includes(needle)` of JavaScript: substring occurrence test. -/
def containsSub (needle : Str) : Str → Bool
  | [] => isPrefixC needle []
  | c :: rest => isPrefixC needle (c :: rest) || containsSub needle rest

/-- `s.split(sep)` of JavaScript for a one-character separator. -/
def splitOnCharC (sep : Char) : Str → List Str
  | [] => [[]]
  | c :: rest =>
    match splitOnCharC sep rest with
    | [] => if c = sep then [[], []] else [[c]]
    | h :: t => if c = sep then [] :: h :: t else (c :: h) :: t

/-- `s.trim()` of JavaScript: strip leading and trailing whitespace. -/
def trimC (s : Str) : Str :=
  ((s.dropWhile isWSChar).reverse.dropWhile isWSChar).reverse

/-- `s.replace(needle, repl)` of JavaScript with string arguments:
replace the first occurrence only. -/
def replaceFirstC (needle repl : Str) : Str → Str
  | [] => []
  | c :: rest =>
    if isPrefixC needle (c :: rest) then
      repl ++ (c :: rest).drop needle.length
    else
      c :: replaceFirstC needle repl rest

/-- A JavaScript number as stored by the client: NaN, a signed infinity,
or a finite value (modelled as a rational, exact for the decimal
literals occurring here). -/
inductive JSNum where
  | nan : JSNum
  | inf (neg : Bool) : JSNum
  | fin (q : ℚ) : JSNum
  deriving DecidableEq, Repr

/-- `isNaN(x)` of JavaScript. -/
def jsIsNaN : JSNum → Bool
  | JSNum.nan => true
  | _ => false

/-- Digits of a decimal literal read into a natural number. -/
def digitsToNat (ds : Str) : ℕ :=
  ds.foldl (fun acc c => acc * 10 + (c.toNat - '0'.toNat)) 0

/-- `parseFloat` of JavaScript restricted to the decimal grammar: skip
leading whitespace, optional sign, then either `Infinity` or a decimal
significand with optional exponent, parsing the longest valid prefix
and returning NaN when no prefix parses. -/
def jsParseFloat (s : Str) : JSNum :=
  let s1 := s.dropWhile isWSChar
  let (neg, s2) :=
    match s1 with
    | '-' :: rest => (true, rest)
    | '+' :: rest => (false, rest)
    | rest => (false, rest)
  if isPrefixC "Infinity".data s2 then
    JSNum.inf neg
  else
    let intDigits := s2.takeWhile Char.isDigit
    let s3 := s2.dropWhile Char.isDigit
    let (fracDigits, s4) :=
      match s3 with
      | '.' :: rest => (rest.takeWhile Char.isDigit, rest.dropWhile Char.isDigit)
      | rest => ([], rest)
    if intDigits = [] ∧ fracDigits = [] then
      JSNum.nan
    else
      let k := fracDigits.length
      let mantNum : ℕ := digitsToNat intDigits * 10 ^ k + digitsToNat fracDigits
      let expPart : Int :=
        match s4 with
        | 'e' :: '-' :: rest =>
          let eds := rest.takeWhile Char.isDigit
          if eds = [] then 0 else -(Int.ofNat (digitsToNat eds))
        | 'e' :: '+' :: rest =>
          let eds := rest.takeWhile Char.isDigit
          if eds = [] then 0 else Int.ofNat (digitsToNat eds)
        | 'e' :: rest =>
          let eds := rest.takeWhile Char.isDigit
          if eds = [] then 0 else Int.ofNat (digitsToNat eds)
        | 'E' :: '-' :: rest =>
          let eds := rest.takeWhile Char.isDigit
          if eds = [] then 0 else -(Int.ofNat (digitsToNat eds))
        | 'E' :: '+' :: rest =>
          let eds := rest.takeWhile Char.isDigit
          if eds = [] then 0 else Int.ofNat (digitsToNat eds)
        | 'E' :: rest =>
          let eds := rest.takeWhile Char.isDigit
          if eds = [] then 0 else Int.ofNat (digitsToNat eds)
        | _ => 0
      let signedNum : Int :=
        if neg then -(Int.ofNat mantNum) else Int.ofNat mantNum
      let value : ℚ :=
        match expPart with
        | Int.ofNat e => mkRat (signedNum * Int.ofNat (10 ^ e)) (10 ^ k)
        | Int.negSucc e => mkRat signedNum (10 ^ k * 10 ^ (e + 1))
      JSNum.fin value

example : jsParseFloat "1.0".data = JSNum.fin 1 := by decide
example : jsParseFloat "2.0".data = JSNum.fin 2 := by decide
example : jsParseFloat "abc".data = JSNum.nan := by decide
example : jsParseFloat "-3.5".data = JSNum.fin (mkRat (-7) 2) := by decide
example : jsParseFloat "1e2".data = JSNum.fin 100 := by decide
example : jsParseFloat "Infinity".data = JSNum.inf false := by decide
example : jsParseFloat "  .5x".data = JSNum.fin (mkRat 1 2) := by decide

/-- Maximal run of characters in the regex class `[\d.]`. -/
def takeNumClass (s : Str) : Str × Str :=
  (s.takeWhile (fun c => c.isDigit || c = '.'), s.dropWhile (fun c => c.isDigit || c = '.'))

/-- Strip an exact literal prefix, returning the rest on success. -/
def dropLit : Str → Str → Option Str
  | [], rest => some rest
  | _ :: _, [] => none
  | a :: as, b :: bs => if a = b then dropLit as bs else none

/-- Attempt the regex `time:\s*([\d.]+)ms\s*\(([\d.]+)\s*Hz\)` anchored at
the head of the string, returning the two captured groups.  The regex's
greedy quantifiers never need backtracking here because the character
classes are disjoint from the literals that follow them. -/
def tryTimingAt (s : Str) : Option (Str × Str) :=
  match dropLit "time:".data s with
  | none => none
  | some r1 =>
    let r2 := r1.dropWhile isWSChar
    let (d1, r3) := takeNumClass r2
    if d1 = [] then none else
    match dropLit "ms".data r3 with
    | none => none
    | some r4 =>
      let r5 := r4.dropWhile isWSChar
      match r5 with
      | '(' :: r6 =>
        let (d2, r7) := takeNumClass r6
        if d2 = [] then none else
        let r8 := r7.dropWhile isWSChar
        match dropLit "Hz)".data r8 with
        | none => none
        | some _ => some (d1, d2)
      | _ => none

/-- `line.match(/time:\s*([\d.]+)ms\s*\(([\d.]+)\s*Hz\)/)`: search for the
leftmost position where the timing pattern matches. -/
def searchTiming : Str → Option (Str × Str)
  | [] => tryTimingAt []
  | c :: rest =>
    match tryTimingAt (c :: rest) with
    | some r => some r
    | none => searchTiming rest

/-- JS object property update: an existing key keeps its position and gets
the new value, a fresh key is appended. -/
def insertJS (k : String) (v : JSNum) : List (String × JSNum) → List (String × JSNum)
  | [] => [(k, v)]
  | (k', v') :: t => if k' = k then (k', v) :: t else (k', v') :: insertJS k v t

/-- Result of `parseTableData` in `Teleoperation.tsx`. -/
structure ParsedTable where
  positions : List (String × JSNum)
  timeInfo : String
  freqInfo : String
  deriving DecidableEq, Repr

/-- The first `if` of the `parseTableData` loop body: a joint-position
line (`<name>.pos | <value>`) updates the positions object when the split
yields exactly two parts and the value parses to a non-NaN number. -/
def jointLineUpdate (acc : ParsedTable) (t : Str) : ParsedTable :=
  if containsSub ".pos".data t && containsSub "|".data t then
    match splitOnCharC '|' t with
    | [p0, p1] =>
      let jointName := String.mk (replaceFirstC ".pos".data [] (trimC p0))
      let value := jsParseFloat (trimC p1)
      if jsIsNaN value then acc
      else { acc with positions := insertJS jointName value acc.positions }
    | _ => acc
  else acc

/-- The second `if` of the `parseTableData` loop body: a line starting
with `time:` updates the timing fields when the timing regex matches. -/
def timingLineUpdate (acc : ParsedTable) (t : Str) : ParsedTable :=
  if isPrefixC "time:".data t then
    match searchTiming t with
    | some (d1, d2) =>
      { acc with
        timeInfo := String.mk (d1 ++ "ms".data)
        freqInfo := String.mk (d2 ++ (' ' :: "Hz".data)) }
    | none => acc
  else acc

/-- One iteration of the `for (const line of lines)` loop of
`parseTableData`: trim the line, then apply the joint-position update
followed by the timing update. -/
def processTableLine (acc : ParsedTable) (line : Str) : ParsedTable :=
  timingLineUpdate (jointLineUpdate acc (trimC line)) (trimC line)

/-- `parseTableData` of `Teleoperation.tsx`: split the table text on
newlines and fold the line handler over the lines, starting from an empty
positions object and empty timing strings. -/
def parseTableData (tableText : String) : ParsedTable :=
  (splitOnCharC '\n' tableText.data).foldl processTableLine ⟨[], "", ""⟩

example :
    parseTableData "j1.pos | 1.0\nj2.pos | 2.0\ntime: 5ms (200 Hz)" =
      ⟨[("j1", JSNum.fin 1), ("j2", JSNum.fin 2)], "5ms", "200 Hz"⟩ := by decide
example : parseTableData "j1.pos | abc" = ⟨[], "", ""⟩ := by decide
example : parseTableData "j1.pos 1.0" = ⟨[], "", ""⟩ := by decide

/-- A message arriving on the teleoperation WebSocket, already typed by the
server (`data.type` / `data.data`).  Status payloads carry the status
string. -/
inductive TeleopMsg where
  | output (s : String) : TeleopMsg
  | table (s : String) : TeleopMsg
  | status (s : String) : TeleopMsg
  | error (s : String) : TeleopMsg
  deriving DecidableEq, Repr

/-- The React state of `Teleoperation.tsx` touched by the WebSocket
message handler. -/
structure TeleopState where
  output : List String
  jointPositions : List (String × JSNum)
  lastUpdateTime : String
  updateFrequency : String
  isRunning : Bool
  isTeleoperating : Bool
  deriving DecidableEq, Repr

def initTeleop : TeleopState :=
  { output := [], jointPositions := [], lastUpdateTime := ""
    updateFrequency := "", isRunning := false, isTeleoperating := false }

/-- The filter in the `output` branch of the teleoperation `ws.onmessage`:
lines containing any table-related substring are kept out of the status
log. -/
def tableMarker (s : Str) : Bool :=
  containsSub ".pos".data s ||
  containsSub "NAME".data s ||
  containsSub "NORM".data s ||
  containsSub "---------------------------".data s ||
  containsSub "time:".data s ||
  containsSub "ms".data s ||
  containsSub "Hz".data s

/-- `ws.onmessage` of `startWebSocketConnection` in `Teleoperation.tsx`:
non-table output is appended to the status log, a table message replaces
the joint-position map and timing fields wholesale via `parseTableData`,
a `finished` status clears the running flags, and an error message leaves
the modelled state unchanged (it only raises a toast). -/
def teleStep (st : TeleopState) : TeleopMsg → TeleopState
  | TeleopMsg.output s =>
    if tableMarker s.data then st else { st with output := st.output ++ [s] }
  | TeleopMsg.table s =>
    let r := parseTableData s
    { st with
      jointPositions := r.positions
      lastUpdateTime := r.timeInfo
      updateFrequency := r.freqInfo }
  | TeleopMsg.status s =>
    if s = "finished" then { st with isRunning := false, isTeleoperating := false }
    else st
  | TeleopMsg.error _ => st

example :
    (teleStep (teleStep initTeleop
        (TeleopMsg.table "j1.pos | 1.0\nj2.pos | 2.0\ntime: 5ms (200 Hz)"))
      (TeleopMsg.output "hello")).output = ["hello"] := by decide

/-- `data.replace(/\r/g, '').trim()` applied to an output payload in the
calibration WebSocket handler. -/
def cleanLine (s : Str) : Str :=
  trimC (s.filter (fun c => !(c = '\r')))

/-- The prompt-detection condition of the calibration output handler,
evaluated on the lowercased cleaned line. -/
def detectPrompt (clean : Str) : Bool :=
  let lo := clean.map toLowerChar
  containsSub "press enter....".data lo ||
  containsSub "press enter to stop".data lo ||
  containsSub "press enter to continue".data lo ||
  containsSub "press enter".data lo ||
  (containsSub "move test".data lo && containsSub "middle of its range".data lo) ||
  (containsSub "move all joints".data lo && containsSub "entire ranges".data lo)

/-- First branch of the step-status `else if` chain (case-sensitive). -/
def startedForB (clean : Str) : Bool :=
  containsSub "Calibration started for".data clean

/-- Second branch of the step-status chain. -/
def moveTestB (clean : Str) : Bool :=
  containsSub "Move test".data clean && containsSub "middle of its range".data clean

/-- Third branch of the step-status chain. -/
def moveAllB (clean : Str) : Bool :=
  containsSub "Move all joints".data clean && containsSub "entire ranges".data clean

/-- Completion indicators of the final branch of the step-status chain. -/
def completionB (clean : Str) : Bool :=
  containsSub "Calibration completed successfully".data clean ||
  containsSub "Process finished".data clean ||
  containsSub "Calibration completed!".data clean ||
  containsSub "exit code 0".data clean ||
  containsSub "calibration files saved".data clean

/-- The completion branch actually runs (and resets the waiting flag) only
when the earlier branches of the `else if` chain did not match. -/
def completionResets (clean : Str) : Bool :=
  !startedForB clean && !moveTestB clean && !moveAllB clean && completionB clean

/-- The React state of `Calibration.tsx` touched by the handlers modelled
here. -/
structure CalState where
  calibrationOutput : String
  waitingForUser : Bool
  isCalibrating : Bool
  isSendingInput : Bool
  sessionId : String
  deriving DecidableEq, Repr

/-- Events that mutate the calibration client state: a WebSocket message
(`output` / `status` / `error`), one round of the 2-second status poll in
`monitorCalibrationProcess` (carrying the server-reported
`is_waiting_for_input` and `is_running`), and the two outcomes of a
`handleContinue` submission. -/
inductive CalEvent where
  | wsOutput (t : String) : CalEvent
  | wsStatus (s : String) : CalEvent
  | wsError (t : String) : CalEvent
  | pollStatus (isWaiting running : Bool) : CalEvent
  | continueOk : CalEvent
  | continueFail : CalEvent
  deriving DecidableEq, Repr

/-- One event of the calibration client, following the handlers in
`Calibration.tsx`: an output line replaces the displayed output, may set
the waiting flag on a prompt match and resets it on a completion line; a
`finished` status and a poll that reports the session stopped clear both
flags; a status poll overwrites the waiting flag with the server value; a
successful `handleContinue` clears the waiting flag and replaces the
displayed output. -/
def calStep (st : CalState) : CalEvent → CalState
  | CalEvent.wsOutput t =>
    let clean := cleanLine t.data
    let w1 := if detectPrompt clean then true else st.waitingForUser
    let w2 := if completionResets clean then false else w1
    { st with calibrationOutput := String.mk clean, waitingForUser := w2 }
  | CalEvent.wsStatus s =>
    if s = "finished" then
      { st with isCalibrating := false, waitingForUser := false }
    else st
  | CalEvent.wsError _ => st
  | CalEvent.pollStatus w r =>
    if !r && st.isCalibrating then
      { st with waitingForUser := false, isCalibrating := false }
    else
      { st with waitingForUser := w }
  | CalEvent.continueOk =>
    { st with
      waitingForUser := false
      calibrationOutput := "[INFO] Enter key sent to calibration process"
      isSendingInput := false }
  | CalEvent.continueFail => { st with isSendingInput := false }

/-- JSX: the Continue button exists only while `waitingForUser` is true. -/
def continueRendered (st : CalState) : Bool := st.waitingForUser

/-- JSX: the Continue button is disabled while `isSendingInput` is true. -/
def continueDisabled (st : CalState) : Bool := st.isSendingInput

/-- Guard at the top of `handleContinue`:
`if (!sessionId || isSendingInput) return`. -/
def handleContinueSends (st : CalState) : Bool :=
  !(st.sessionId = "") && !st.isSendingInput

/-- A user click on the Continue control results in a `submit_input`
request exactly when the control is rendered, not disabled, and the
handler guard passes. -/
def uiContinueSends (st : CalState) : Bool :=
  continueRendered st && !continueDisabled st && handleContinueSends st

/-- The React state of the motor-setup section of `ArmConfiguration.tsx`
touched by its WebSocket handler. -/
structure MotorState where
  motorConfigOutput : String
  motorConfigWaiting : Bool
  isRunningMotorConfig : Bool
  deriving DecidableEq, Repr

/-- The `output` branch of the motor-setup `ws.onmessage`: append the
payload to the output and set the waiting flag when the lowercased
payload contains "press enter". -/
def motorOutputStep (st : MotorState) (t : String) : MotorState :=
  let st1 := { st with motorConfigOutput := st.motorConfigOutput ++ t }
  if containsSub "press enter".data (t.data.map toLowerChar) then
    { st1 with motorConfigWaiting := true }
  else st1

/-- State of the camera section of `ArmConfiguration.tsx`: the set of
streaming camera ids (as an ordered list) and the per-camera stream
timestamps. -/
structure CamPageState where
  streamingCameras : List String
  streamTimestamps : List (String × ℕ)
  deriving DecidableEq, Repr

/-- `cameraId.replace('camera', '')`: the device index used in the stop
request URL. -/
def camIndexOf (cameraId : String) : String :=
  String.mk (replaceFirstC "camera".data [] cameraId.data)

/-- The per-camera stop attempts of `stopAllCameraStreams`: each camera in
the streaming set gets a DELETE request; a failing request is caught by
the per-camera `try/catch` (its error is only logged), so the remaining
cameras are still stopped.  Returns the list of device indices that were
sent a stop request and the list of logged errors; `fails` says which
requests fail. -/
def sweepStops (fails : String → Bool) : List String → List String × List String
  | [] => ([], [])
  | c :: rest =>
    let attempt : Except String Unit :=
      if fails c then Except.error (camIndexOf c) else Except.ok ()
    let logged : List String :=
      match attempt with
      | Except.error e => [e]
      | Except.ok _ => []
    let (reqs, errs) := sweepStops fails rest
    (camIndexOf c :: reqs, logged ++ errs)

/-- `stopAllCameraStreams` of `ArmConfiguration.tsx`: best-effort stop of
every streaming camera, then clear the streaming set and the timestamp
map.  The sweep itself never fails: per-camera errors are collected, not
propagated. -/
def stopAllCameraStreams (st : CamPageState) (fails : String → Bool) :
    (List String × List String) × CamPageState :=
  (sweepStops fails st.streamingCameras,
   { streamingCameras := [], streamTimestamps := [] })

/-- `armConfig` of the zustand store. -/
structure ArmConfig where
  leaderPort : String
  followerPort : String
  leaderConnected : Bool
  followerConnected : Bool
  leaderRobotType : String
  followerRobotType : String
  leaderRobotId : String
  followerRobotId : String
  deriving DecidableEq, Repr

/-- `CameraConfig` of the zustand store. -/
structure CameraConfig where
  id : String
  name : String
  url : String
  enabled : Bool
  width : Option ℕ
  height : Option ℕ
  fps : Option ℕ
  index : Option ℕ
  deriving DecidableEq, Repr

/-- `Dataset` of the zustand store. -/
structure Dataset where
  id : String
  name : String
  path : String
  size : ℕ
  createdAt : String
  duration : ℕ
  frameCount : ℕ
  deriving DecidableEq, Repr

/-- `TrainingConfig` of the zustand store. -/
structure TrainingConfig where
  modelType : String
  learningRate : ℚ
  batchSize : ℕ
  epochs : ℕ
  datasetPath : String
  outputPath : String
  deriving DecidableEq, Repr

/-- `currentSession` of the zustand store. -/
structure CurrentSession where
  isRecording : Bool
  isReplaying : Bool
  isTeleoperating : Bool
  deriving DecidableEq, Repr

/-- The zustand store state of `lerobotStore.tsx`. -/
structure StoreState where
  armConfig : ArmConfig
  cameras : List CameraConfig
  datasets : List Dataset
  trainingConfig : TrainingConfig
  isTraining : Bool
  isConnected : Bool
  currentSession : CurrentSession
  hfUser : String
  hfToken : String
  deriving DecidableEq, Repr

/-- `toggleCamera` of `lerobotStore.tsx`: map over the cameras, flipping
`enabled` on the entry whose id matches; zustand's `set` merges the
partial update, so every other store field is untouched. -/
def toggleCamera (id : String) (st : StoreState) : StoreState :=
  { st with
    cameras := st.cameras.map (fun camera =>
      if camera.id = id then { camera with enabled := !camera.enabled } else camera) }

/-- C1: For the contiguous table block `"j1.pos | 1.0"`, `"j2.pos | 2.0"`,
`"time: 5ms (200 Hz)"`, `parseTableData` applied to the newline-joined
block returns exactly the joint map `{j1 ↦ 1.0, j2 ↦ 2.0}` with update
time `"5ms"` and frequency `"200 Hz"`; and the following non-table line
`"hello"` arriving as an `output` message is appended to the plain output
log and is not merged into the table state. -/
theorem table_block_and_hello_separate :
    parseTableData "j1.pos | 1.0\nj2.pos | 2.0\ntime: 5ms (200 Hz)" =
      { positions := [("j1", JSNum.fin 1), ("j2", JSNum.fin 2)]
        timeInfo := "5ms", freqInfo := "200 Hz" } ∧
    teleStep (teleStep initTeleop
        (TeleopMsg.table "j1.pos | 1.0\nj2.pos | 2.0\ntime: 5ms (200 Hz)"))
      (TeleopMsg.output "hello") =
      { output := ["hello"]
        jointPositions := [("j1", JSNum.fin 1), ("j2", JSNum.fin 2)]
        lastUpdateTime := "5ms", updateFrequency := "200 Hz"
        isRunning := false, isTeleoperating := false } := by
  constructor
  · decide
  · decide

/-- C2: Every `table` message replaces the displayed joint-position map
and the timing fields wholesale with the values parsed from that one
message, regardless of the previous state; the output log is not touched
by a table message. -/
theorem table_message_replaces_wholesale (st : TeleopState) (s : String) :
    (teleStep st (TeleopMsg.table s)).jointPositions = (parseTableData s).positions ∧
    (teleStep st (TeleopMsg.table s)).lastUpdateTime = (parseTableData s).timeInfo ∧
    (teleStep st (TeleopMsg.table s)).updateFrequency = (parseTableData s).freqInfo ∧
    (teleStep st (TeleopMsg.table s)).output = st.output := by
  exact ⟨rfl, rfl, rfl, rfl⟩

theorem sweepStops_eq (fails : String → Bool) (l : List String) :
    sweepStops fails l =
      (l.map camIndexOf, (l.filter fails).map camIndexOf) := by
  induction l with
  | nil => rfl
  | cons c rest ih =>
    by_cases h : fails c = true
    · simp [sweepStops, h, ih]
    · simp at h
      simp [sweepStops, h, ih]

/-- C7: The stop-all sweep issues one stop request per streaming camera;
an individual failure is caught (collected in the error log) and does not
prevent the remaining stop requests nor fail the sweep, and afterwards
the streaming set and the timestamp map are empty. -/
theorem stop_all_sweeps_best_effort (st : CamPageState) (fails : String → Bool) :
    (stopAllCameraStreams st fails).1.1 = st.streamingCameras.map camIndexOf ∧
    (stopAllCameraStreams st fails).1.2 =
      (st.streamingCameras.filter fails).map camIndexOf ∧
    (stopAllCameraStreams st fails).2.streamingCameras = [] ∧
    (stopAllCameraStreams st fails).2.streamTimestamps = [] := by
  refine ⟨?_, ?_, rfl, rfl⟩
  · simp [stopAllCameraStreams, sweepStops_eq]
  · simp [stopAllCameraStreams, sweepStops_eq]

theorem toggleCamera_twice_cameras (id : String) (l : List CameraConfig) :
    (l.map (fun camera =>
        if camera.id = id then { camera with enabled := !camera.enabled } else camera)).map
      (fun camera =>
        if camera.id = id then { camera with enabled := !camera.enabled } else camera) = l := by
  induction l with
  | nil => rfl
  | cons c rest ih =>
    by_cases h : c.id = id
    · cases c
      simp_all
    · simp [h, ih]

/-- C10: `toggleCamera id` flips only the `enabled` flag of the cameras
whose id equals the argument: any entry with a different id is unchanged
in place, the matching entry changes only its `enabled` field, every
other field of the store is untouched, and applying the toggle twice
restores the original camera list. -/
theorem toggleCamera_spec (st : StoreState) (id : String) :
    (toggleCamera id st).cameras.length = st.cameras.length ∧
    (∀ i, ∀ h : i < st.cameras.length, ∀ h' : i < (toggleCamera id st).cameras.length,
      ((st.cameras.get ⟨i, h⟩).id ≠ id →
        (toggleCamera id st).cameras.get ⟨i, h'⟩ = st.cameras.get ⟨i, h⟩) ∧
      ((st.cameras.get ⟨i, h⟩).id = id →
        (toggleCamera id st).cameras.get ⟨i, h'⟩ =
          { st.cameras.get ⟨i, h⟩ with enabled := !(st.cameras.get ⟨i, h⟩).enabled })) ∧
    (toggleCamera id (toggleCamera id st)).cameras = st.cameras ∧
    (toggleCamera id st).armConfig = st.armConfig ∧
    (toggleCamera id st).datasets = st.datasets ∧
    (toggleCamera id st).trainingConfig = st.trainingConfig ∧
    (toggleCamera id st).isTraining = st.isTraining ∧
    (toggleCamera id st).isConnected = st.isConnected ∧
    (toggleCamera id st).currentSession = st.currentSession ∧
    (toggleCamera id st).hfUser = st.hfUser ∧
    (toggleCamera id st).hfToken = st.hfToken := by
  refine ⟨by simp [toggleCamera], ?_, ?_, rfl, rfl, rfl, rfl, rfl, rfl, rfl, rfl⟩
  · intro i h h'
    have e : (toggleCamera id st).cameras.get ⟨i, h'⟩ =
        (fun camera =>
          if camera.id = id then { camera with enabled := !camera.enabled } else camera)
          (st.cameras.get ⟨i, h⟩) := by
      simp [toggleCamera]
    constructor
    · intro hne
      rw [e]
      simp only [List.get_eq_getElem] at hne
      simp [hne]
    · intro heq
      rw [e]
      simp only [List.get_eq_getElem] at heq
      simp [heq]
  · exact toggleCamera_twice_cameras id st.cameras

/-- Witness for C10 at a concrete store with two cameras. -/
theorem toggleCamera_spec_witness :
    (toggleCamera "a"
        { armConfig := ⟨"", "", false, false, "", "", "", ""⟩
          cameras := [⟨"a", "cam a", "", true, none, none, none, none⟩,
                      ⟨"b", "cam b", "", false, none, none, none, none⟩]
          datasets := [], trainingConfig := ⟨"", 0, 0, 0, "", ""⟩
          isTraining := false, isConnected := false
          currentSession := ⟨false, false, false⟩
          hfUser := "", hfToken := "" }).cameras.get ⟨1, by decide⟩ =
      ⟨"b", "cam b", "", false, none, none, none, none⟩ := by
  exact ((toggleCamera_spec
      { armConfig := ⟨"", "", false, false, "", "", "", ""⟩
        cameras := [⟨"a", "cam a", "", true, none, none, none, none⟩,
                    ⟨"b", "cam b", "", false, none, none, none, none⟩]
        datasets := [], trainingConfig := ⟨"", 0, 0, 0, "", ""⟩
        isTraining := false, isConnected := false
        currentSession := ⟨false, false, false⟩
        hfUser := "", hfToken := "" } "a").2.1 1 (by decide) (by decide)).1 (by decide)

/-- C6: A `submit_input` request can only be issued through the Continue
control, and that path requires the awaiting-input flag to be true (the
control is not rendered otherwise), no submission to be in flight (the
control is disabled and the handler guard returns), and a session id to
exist (the handler guard returns without one). -/
theorem no_submit_while_not_awaiting (st : CalState)
    (h : uiContinueSends st = true) :
    st.waitingForUser = true ∧ st.isSendingInput = false ∧ st.sessionId ≠ "" := by
  simp [uiContinueSends, continueRendered, continueDisabled, handleContinueSends] at h
  refine ⟨?_, ?_, ?_⟩ <;> tauto

/-- Witness for C6 at a concrete awaiting state. -/
theorem no_submit_while_not_awaiting_witness :
    { calibrationOutput := "", waitingForUser := true, isCalibrating := true
      isSendingInput := false, sessionId := "abc" : CalState }.waitingForUser = true ∧
    { calibrationOutput := "", waitingForUser := true, isCalibrating := true
      isSendingInput := false, sessionId := "abc" : CalState }.isSendingInput = false ∧
    { calibrationOutput := "", waitingForUser := true, isCalibrating := true
      isSendingInput := false, sessionId := "abc" : CalState }.sessionId ≠ "" :=
  no_submit_while_not_awaiting
    { calibrationOutput := "", waitingForUser := true, isCalibrating := true
      isSendingInput := false, sessionId := "abc" } (by decide)

theorem insertJS_mem (k : String) (v : JSNum) (l : List (String × JSNum))
    (k' : String) (v' : JSNum) (h : (k', v') ∈ insertJS k v l) :
    v' = v ∨ (k', v') ∈ l := by
  induction l with
  | nil =>
    simp [insertJS] at h
    exact Or.inl h.2
  | cons p t ih =>
    by_cases hk : p.1 = k
    · simp [insertJS, hk] at h
      rcases h with h | h
      · exact Or.inl h.2
      · exact Or.inr (List.mem_cons_of_mem _ h)
    · simp only [insertJS, if_neg hk] at h
      rcases List.mem_cons.mp h with h | h
      · exact Or.inr (h ▸ List.mem_cons_self _ _)
      · rcases ih h with h2 | h2
        · exact Or.inl h2
        · exact Or.inr (List.mem_cons_of_mem _ h2)

theorem timingLineUpdate_positions (acc : ParsedTable) (t : Str) :
    (timingLineUpdate acc t).positions = acc.positions := by
  unfold timingLineUpdate
  split
  · split
    · rfl
    · rfl
  · rfl

theorem jointLineUpdate_mem (acc : ParsedTable) (t : Str)
    (k : String) (v : JSNum) (h : (k, v) ∈ (jointLineUpdate acc t).positions) :
    (k, v) ∈ acc.positions ∨ jsIsNaN v = false := by
  unfold jointLineUpdate at h
  split at h
  · split at h
    · rename_i p0 p1 heq
      by_cases hn : jsIsNaN (jsParseFloat (trimC p1)) = true
      · simp only [hn, if_true] at h
        exact Or.inl h
      · simp only [Bool.not_eq_true] at hn
        simp only [hn, Bool.false_eq_true, if_false] at h
        rcases insertJS_mem _ _ _ _ _ h with h2 | h2
        · exact Or.inr (h2 ▸ hn)
        · exact Or.inl h2
    · exact Or.inl h
  · exact Or.inl h

theorem processTableLine_mem (acc : ParsedTable) (line : Str)
    (k : String) (v : JSNum) (h : (k, v) ∈ (processTableLine acc line).positions) :
    (k, v) ∈ acc.positions ∨ jsIsNaN v = false := by
  unfold processTableLine at h
  rw [timingLineUpdate_positions] at h
  exact jointLineUpdate_mem acc (trimC line) k v h

theorem parseTable_fold_no_nan (lines : List Str) (acc : ParsedTable)
    (hacc : ∀ p ∈ acc.positions, jsIsNaN p.2 = false)
    (k : String) (v : JSNum)
    (h : (k, v) ∈ (lines.foldl processTableLine acc).positions) :
    jsIsNaN v = false := by
  induction lines generalizing acc with
  | nil => exact hacc (k, v) h
  | cons line rest ih =>
    refine ih (processTableLine acc line) ?_ h
    intro p hp
    rcases processTableLine_mem acc line p.1 p.2 hp with h2 | h2
    · exact hacc p h2
    · exact h2

/-- C9: `parseTableData` is total and never stores NaN: every value in
the returned positions map came from a `parseFloat` result that passed
the `!isNaN` guard, so NaN never appears as a joint value. -/
theorem parseTableData_no_nan (s : String) (k : String) (v : JSNum)
    (h : (k, v) ∈ (parseTableData s).positions) : jsIsNaN v = false := by
  exact parseTable_fold_no_nan (splitOnCharC '\n' s.data) ⟨[], "", ""⟩
    (by intro p hp; cases hp) k v h

/-- Witness for C9 at the concrete table block. -/
theorem parseTableData_no_nan_witness : jsIsNaN (JSNum.fin 1) = false :=
  parseTableData_no_nan "j1.pos | 1.0" "j1" (JSNum.fin 1) (by decide)

/-- Counterexample to C3: the malformed table line `"j1.pos | abc"`
contributes no entry to the table accumulator (that half holds), but when
it arrives as a plain `output` message the client does not display it:
the output filter drops every line containing `.pos`, so the line is lost
to the operator rather than shown. -/
theorem malformed_line_lost_cex :
    (parseTableData "j1.pos | abc").positions = [] ∧
    (teleStep initTeleop (TeleopMsg.output "j1.pos | abc")).output = [] := by
  exact ⟨by decide, by decide⟩

/-- C3 (amended): malformed table lines (missing separator, or a value
that parses to NaN) contribute no entry to the table accumulator; an
`output` message containing a table marker (such as `.pos`) is however
dropped from the display log, and only marker-free lines are appended. -/
theorem malformed_table_lines :
    (∀ acc line, containsSub "|".data (trimC line) = false →
      (processTableLine acc line).positions = acc.positions) ∧
    (∀ acc line p0 p1, splitOnCharC '|' (trimC line) = [p0, p1] →
      jsIsNaN (jsParseFloat (trimC p1)) = true →
      (processTableLine acc line).positions = acc.positions) ∧
    (∀ st t, tableMarker t.data = true →
      (teleStep st (TeleopMsg.output t)).output = st.output) ∧
    (∀ st t, tableMarker t.data = false →
      (teleStep st (TeleopMsg.output t)).output = st.output ++ [t]) := by
  refine ⟨?_, ?_, ?_, ?_⟩
  · intro acc line h
    unfold processTableLine
    rw [timingLineUpdate_positions]
    unfold jointLineUpdate
    simp [h]
  · intro acc line p0 p1 heq hn
    unfold processTableLine
    rw [timingLineUpdate_positions]
    unfold jointLineUpdate
    split
    · simp [heq, hn]
    · rfl
  · intro st t h
    simp [teleStep, h]
  · intro st t h
    simp [teleStep, h]

/-- Witness for C3 (amended) at concrete malformed lines. -/
theorem malformed_table_lines_witness :
    (processTableLine ⟨[], "", ""⟩ "j1.pos 1.0".data).positions =
      (⟨[], "", ""⟩ : ParsedTable).positions ∧
    (processTableLine ⟨[], "", ""⟩ "j1.pos | abc".data).positions =
      (⟨[], "", ""⟩ : ParsedTable).positions ∧
    (teleStep initTeleop (TeleopMsg.output "NORM")).output = initTeleop.output ∧
    (teleStep initTeleop (TeleopMsg.output "hello")).output =
      initTeleop.output ++ ["hello"] :=
  ⟨malformed_table_lines.1 ⟨[], "", ""⟩ "j1.pos 1.0".data (by decide),
   malformed_table_lines.2.1 ⟨[], "", ""⟩ "j1.pos | abc".data
     "j1.pos ".data " abc".data (by decide) (by decide),
   malformed_table_lines.2.2.1 initTeleop "NORM" (by decide),
   malformed_table_lines.2.2.2 initTeleop "hello" (by decide)⟩

/-- Counterexample to C8: an arriving `output` message containing a table
marker (here a timing line) is not appended to the retained display log,
so "every arriving output message is appended" fails. -/
theorem scrollback_not_appended_cex :
    (teleStep initTeleop (TeleopMsg.output "time: 5ms (200 Hz)")).output = [] := by
  decide

theorem teleop_log_replicate (n : ℕ) (st : TeleopState) :
    ((List.replicate n (TeleopMsg.output "hello")).foldl teleStep st).output.length =
      st.output.length + n := by
  induction n generalizing st with
  | zero => simp
  | succ m ih =>
    have hm : tableMarker ("hello" : String).data = false := by decide
    rw [List.replicate_succ, List.foldl_cons, ih]
    simp [teleStep, hm]
    omega

/-- C8 (amended): the Teleoperation display log appends exactly the
`output` messages that contain no table-marker substring and drops the
rest; the log is unbounded (after n marker-free messages it holds n
entries, for every n); the Calibration page instead retains only the
cleaned text of the single most recent output message. -/
theorem scrollback_amended :
    (∀ st t, (teleStep st (TeleopMsg.output t)).output =
      (if tableMarker t.data = true then st.output else st.output ++ [t])) ∧
    (∀ n : ℕ,
      ((List.replicate n (TeleopMsg.output "hello")).foldl teleStep initTeleop).output.length
        = n) ∧
    (∀ st t, (calStep st (CalEvent.wsOutput t)).calibrationOutput =
      String.mk (cleanLine t.data)) := by
  refine ⟨?_, ?_, ?_⟩
  · intro st t
    by_cases h : tableMarker t.data = true <;> simp [teleStep, h]
  · intro n
    rw [teleop_log_replicate]
    simp [initTeleop]
  · intro st t
    rfl

/-- A calibration client state mid-session: subprocess running, not yet
awaiting input. -/
def calRunning : CalState :=
  { calibrationOutput := "", waitingForUser := false, isCalibrating := true
    isSendingInput := false, sessionId := "s1" }

/-- Counterexample to C5: after the prompt line "Press Enter to continue"
sets the awaiting flag, a status-poll round that reports
`is_waiting_for_input = false` while the session is still running resets
the flag to false with no successful `submit_input` having occurred. -/
theorem awaiting_reset_by_poll_cex :
    (calStep calRunning (CalEvent.wsOutput "Press Enter to continue")).waitingForUser
        = true ∧
    (calStep (calStep calRunning (CalEvent.wsOutput "Press Enter to continue"))
        (CalEvent.pollStatus false true)).waitingForUser = false ∧
    (calStep (calStep calRunning (CalEvent.wsOutput "Press Enter to continue"))
        (CalEvent.pollStatus false true)).isCalibrating = true := by
  exact ⟨by decide, by decide, by decide⟩

/-- C5 (amended): while the session is running, the awaiting-input flag
can go from true to false only through a successful input submission, an
output line whose completion branch fires, a status-poll round reporting
not-waiting or not-running, or a `finished` status message. -/
theorem awaiting_reset_events (st : CalState) (ev : CalEvent)
    (hw : st.waitingForUser = true) (hc : st.isCalibrating = true)
    (hr : (calStep st ev).waitingForUser = false) :
    ev = CalEvent.continueOk ∨
    (∃ t, ev = CalEvent.wsOutput t ∧ completionResets (cleanLine t.data) = true) ∨
    (∃ w r, ev = CalEvent.pollStatus w r ∧ (w = false ∨ r = false)) ∨
    ev = CalEvent.wsStatus "finished" := by
  cases ev with
  | wsOutput t =>
    refine Or.inr (Or.inl ⟨t, rfl, ?_⟩)
    by_contra hcr
    simp only [Bool.not_eq_true] at hcr
    simp [calStep, hcr, hw] at hr
  | wsStatus s =>
    by_cases hs : s = "finished"
    · exact Or.inr (Or.inr (Or.inr (by rw [hs])))
    · simp [calStep, hs, hw] at hr
  | wsError t => simp [calStep, hw] at hr
  | pollStatus w r =>
    refine Or.inr (Or.inr (Or.inl ⟨w, r, rfl, ?_⟩))
    by_cases hrr : r = true
    · simp [calStep, hrr, hc] at hr
      exact Or.inl hr
    · simp only [Bool.not_eq_true] at hrr
      exact Or.inr hrr
  | continueOk => exact Or.inl rfl
  | continueFail => simp [calStep, hw] at hr

/-- Witness for C5 (amended): the poll event of the counterexample is one
of the characterized reset events. -/
theorem awaiting_reset_events_witness :
    CalEvent.pollStatus false true = CalEvent.continueOk ∨
    (∃ t, CalEvent.pollStatus false true = CalEvent.wsOutput t ∧
      completionResets (cleanLine t.data) = true) ∨
    (∃ w r, CalEvent.pollStatus false true = CalEvent.pollStatus w r ∧
      (w = false ∨ r = false)) ∨
    CalEvent.pollStatus false true = CalEvent.wsStatus "finished" :=
  awaiting_reset_events
    (calStep calRunning (CalEvent.wsOutput "Press Enter to continue"))
    (CalEvent.pollStatus false true) (by decide) (by decide) (by decide)

theorem toLowerChar_eq_cr (c : Char) : (toLowerChar c = '\r') = (c = '\r') := by
  unfold toLowerChar
  split <;> simp_all

theorem isWSChar_toLowerChar (c : Char) : isWSChar (toLowerChar c) = isWSChar c := by
  unfold toLowerChar
  split <;> rfl

theorem filter_cr_map_toLower (l : Str) :
    (l.map toLowerChar).filter (fun c => !(c = '\r')) =
      (l.filter (fun c => !(c = '\r'))).map toLowerChar := by
  induction l with
  | nil => rfl
  | cons c t ih =>
    by_cases h : c = '\r'
    · subst h
      simp [show toLowerChar '\r' = '\r' from rfl, ih]
    · have h2 : (toLowerChar c = '\r') = False := by
        rw [toLowerChar_eq_cr]
        simp [h]
      simp [h, h2, ih]

theorem dropWhile_ws_map_toLower (l : Str) :
    (l.map toLowerChar).dropWhile isWSChar = (l.dropWhile isWSChar).map toLowerChar := by
  induction l with
  | nil => rfl
  | cons c t ih =>
    by_cases h : isWSChar c = true
    · simp [List.dropWhile_cons, isWSChar_toLowerChar, h, ih]
    · simp only [Bool.not_eq_true] at h
      simp [List.dropWhile_cons, isWSChar_toLowerChar, h]

theorem trimC_map_toLower (l : Str) :
    trimC (l.map toLowerChar) = (trimC l).map toLowerChar := by
  unfold trimC
  rw [dropWhile_ws_map_toLower, ← List.map_reverse, dropWhile_ws_map_toLower,
    ← List.map_reverse]

theorem isPrefixC_iff (n : Str) : ∀ h : Str, isPrefixC n h = true ↔ n <+: h := by
  induction n with
  | nil =>
    intro h
    simp [isPrefixC]
  | cons a as ih =>
    intro h
    cases h with
    | nil =>
      simp [isPrefixC]
    | cons b bs =>
      simp [isPrefixC, List.cons_prefix_cons, ih bs]

theorem containsSub_iff (n : Str) : ∀ h : Str, containsSub n h = true ↔ n <:+: h := by
  intro h
  induction h with
  | nil => simp [containsSub, isPrefixC_iff, List.infix_nil, List.prefix_nil]
  | cons c r ih => simp [containsSub, isPrefixC_iff, ih, List.infix_cons_iff]

theorem infix_filter_of_all (p : Char → Bool) (n h : Str)
    (hall : ∀ c ∈ n, p c = true) (hin : n <:+: h) : n <:+: h.filter p := by
  obtain ⟨s, t, rfl⟩ := hin
  refine ⟨s.filter p, t.filter p, ?_⟩
  simp [List.filter_append, List.filter_eq_self.mpr hall]

theorem infix_dropWhile_of_head (c : Char) (m : Str)
    (hc : isWSChar c = false) :
    ∀ h : Str, (c :: m) <:+: h → (c :: m) <:+: h.dropWhile isWSChar := by
  intro h hin
  induction h with
  | nil =>
    have hnil := List.infix_nil.mp hin
    exact absurd hnil (by simp)
  | cons x r ih =>
    rcases List.infix_cons_iff.mp hin with hpre | hinf
    · have hx := (List.cons_prefix_cons.mp hpre).1
      subst hx
      rw [List.dropWhile_cons, if_neg (by simp [hc])]
      exact hpre.isInfix
    · by_cases hw : isWSChar x = true
      · rw [List.dropWhile_cons, if_pos (by simp [hw])]
        exact ih hinf
      · rw [List.dropWhile_cons, if_neg (by simp [hw])]
        exact List.infix_cons hinf

theorem pressEnter_in_clean (t : Str)
    (h : containsSub "press enter".data (t.map toLowerChar) = true) :
    containsSub "press enter".data ((cleanLine t).map toLowerChar) = true := by
  rw [containsSub_iff] at h ⊢
  have h1 : "press enter".data <:+: (t.map toLowerChar).filter (fun c => !(c = '\r')) :=
    infix_filter_of_all _ _ _ (by decide) h
  rw [filter_cr_map_toLower] at h1
  have h2 : "press enter".data <:+:
      ((t.filter (fun c => !(c = '\r'))).map toLowerChar).dropWhile isWSChar :=
    infix_dropWhile_of_head 'p' "ress enter".data (by decide) _ h1
  have h3 : ("press enter".data).reverse <:+:
      (((t.filter (fun c => !(c = '\r'))).map toLowerChar).dropWhile isWSChar).reverse :=
    List.reverse_infix.mpr h2
  have h4 : ("press enter".data).reverse <:+:
      ((((t.filter (fun c => !(c = '\r'))).map toLowerChar).dropWhile
        isWSChar).reverse).dropWhile isWSChar := by
    have hrev : ("press enter".data).reverse = 'r' :: "etne sserp".data := by decide
    rw [hrev] at h3 ⊢
    exact infix_dropWhile_of_head 'r' "etne sserp".data (by decide) _ h3
  have h5 : "press enter".data <:+: trimC ((t.filter (fun c => !(c = '\r'))).map toLowerChar) := by
    unfold trimC
    refine List.reverse_infix.mp ?_
    rw [List.reverse_reverse]
    exact h4
  rw [trimC_map_toLower] at h5
  exact h5

theorem detectPrompt_of_pressEnter (t : Str)
    (h : containsSub "press enter".data (t.map toLowerChar) = true) :
    detectPrompt (cleanLine t) = true := by
  have := pressEnter_in_clean t h
  simp [detectPrompt, this]

/-- Counterexample to C4: an output line that contains the prompt phrase
"press enter" but also a completion marker does not leave the
awaiting-input flag set: the completion branch of the handler resets it
to false in the same event. -/
theorem prompt_flag_not_set_cex :
    containsSub "press enter".data
      (("press enter -- Calibration completed successfully" : String).data.map
        toLowerChar) = true ∧
    (calStep
        { calibrationOutput := "", waitingForUser := false, isCalibrating := true
          isSendingInput := false, sessionId := "s1" }
        (CalEvent.wsOutput
          "press enter -- Calibration completed successfully")).waitingForUser
      = false := by
  exact ⟨by decide, by decide⟩

/-- C4 (amended): an output message whose lowercased text contains one of
the configured prompt phrases sets the awaiting-input flag, provided the
same line does not also fire the completion-reset branch; a line whose
cleaned text matches none of the configured patterns never sets the flag
(it can only leave it or clear it); the motor-setup handler likewise sets
its waiting flag exactly on lines containing "press enter". -/
theorem prompt_sets_awaiting (st : CalState) (ms : MotorState) (t : String) :
    ((containsSub "press enter".data (t.data.map toLowerChar) = true ∨
      containsSub "press enter to continue".data (t.data.map toLowerChar) = true ∨
      containsSub "press enter to stop".data (t.data.map toLowerChar) = true) →
      completionResets (cleanLine t.data) = false →
      (calStep st (CalEvent.wsOutput t)).waitingForUser = true) ∧
    (detectPrompt (cleanLine t.data) = false →
      (calStep st (CalEvent.wsOutput t)).waitingForUser = true →
      st.waitingForUser = true) ∧
    (containsSub "press enter".data (t.data.map toLowerChar) = true →
      (motorOutputStep ms t).motorConfigWaiting = true) ∧
    (containsSub "press enter".data (t.data.map toLowerChar) = false →
      (motorOutputStep ms t).motorConfigWaiting = ms.motorConfigWaiting) := by
  refine ⟨?_, ?_, ?_, ?_⟩
  · intro h1 h2
    have hpe : containsSub "press enter".data (t.data.map toLowerChar) = true := by
      rcases h1 with h | h | h
      · exact h
      · rw [containsSub_iff] at h ⊢
        exact List.IsInfix.trans ⟨[], " to continue".data, by decide⟩ h
      · rw [containsSub_iff] at h ⊢
        exact List.IsInfix.trans ⟨[], " to stop".data, by decide⟩ h
    have hd := detectPrompt_of_pressEnter t.data hpe
    simp [calStep, hd, h2]
  · intro hd hflag
    by_cases hcr : completionResets (cleanLine t.data) = true
    · simp [calStep, hd, hcr] at hflag
    · simp only [Bool.not_eq_true] at hcr
      simp [calStep, hd, hcr] at hflag
      exact hflag
  · intro h
    simp [motorOutputStep, h]
  · intro h
    simp [motorOutputStep, h]

/-- A calibration client state mid-session with the awaiting flag set. -/
def calWaiting : CalState :=
  { calibrationOutput := "", waitingForUser := true, isCalibrating := true
    isSendingInput := false, sessionId := "s1" }

/-- Witness for C4 (amended) at concrete prompt and non-prompt lines,
exercising all four conjuncts. -/
theorem prompt_sets_awaiting_witness :
    (calStep calRunning (CalEvent.wsOutput "Press Enter to continue...")).waitingForUser
        = true ∧
    calWaiting.waitingForUser = true ∧
    (motorOutputStep ⟨"", false, true⟩ "Press Enter to proceed").motorConfigWaiting
        = true ∧
    (motorOutputStep ⟨"", false, true⟩ "hello").motorConfigWaiting = false :=
  ⟨(prompt_sets_awaiting calRunning ⟨"", false, true⟩ "Press Enter to continue...").1
      (Or.inl (by decide)) (by decide),
   (prompt_sets_awaiting calWaiting ⟨"", false, true⟩ "hello").2.1
      (by decide) (by decide),
   (prompt_sets_awaiting calRunning ⟨"", false, true⟩ "Press Enter to proceed").2.2.1
      (by decide),
   (prompt_sets_awaiting calRunning ⟨"", false, true⟩ "hello").2.2.2 (by decide)⟩
